import Mathlib

/-!
Verification of the content-novelty detector in `daily_insurance_article.js`
(tokenizer, Jaccard title similarity, shingle body similarity, recency
filter, and the bounded re-prompt novelty guard).

Strings are modelled as `List Char`. JavaScript `Set`s of strings are
modelled as `Finset`. Similarity scores (JS floating-point ratios of small
integer set cardinalities) are modelled as exact rationals `ℚ`. Calendar
dates / timestamps are modelled as `Int`.
-/

set_option autoImplicit false

namespace Novelty

abbrev Str := List Char

/-- The character class `\s` used by the tokenizer's regexes (ASCII part:
space, tab, LF, VT, FF, CR). -/
def isWS (c : Char) : Bool :=
  c = ' ' || c = '\t' || c = '\n' || c = '\r' || c = Char.ofNat 11 || c = Char.ofNat 12

def isLowerAZ (c : Char) : Bool := 'a' ≤ c && c ≤ 'z'

def isDigit09 (c : Char) : Bool := '0' ≤ c && c ≤ '9'

/-- Characters that may survive into a token: `[a-z0-9-]`. -/
def isTokenChar (c : Char) : Bool := isLowerAZ c || isDigit09 c || c = '-'

/-- The regex class `[a-z0-9\s-]` of `tokenize`'s first `replace`. -/
def keepClass (c : Char) : Bool := isTokenChar c || isWS c

/-- `String(s).toLowerCase()` (ASCII-faithful). -/
def jsLower (s : Str) : Str := s.map Char.toLower

/-- `.replace(/[^a-z0-9\s-]/g, " ")` : every character outside the keep
class becomes a space. -/
def stripNonClass (s : Str) : Str := s.map (fun c => if keepClass c then c else ' ')

/-- Worker for `.replace(/\s+/g, " ")`: the flag records whether the
previous character belonged to a whitespace run already emitted as one
space. -/
def collapseWSAux : Bool → Str → Str
  | _, [] => []
  | prevWS, c :: cs =>
    if isWS c then
      if prevWS then collapseWSAux true cs
      else ' ' :: collapseWSAux true cs
    else c :: collapseWSAux false cs

/-- `.replace(/\s+/g, " ")` : each maximal whitespace run becomes a single
space. -/
def collapseWS (s : Str) : Str := collapseWSAux false s

/-- `.trim()` : drop leading and trailing whitespace. -/
def trimWS (s : Str) : Str := ((s.dropWhile isWS).reverse.dropWhile isWS).reverse

/-- Worker for `.split(" ")`: accumulates the current piece reversed. -/
def splitSpAux (acc : Str) : Str → List Str
  | [] => [acc.reverse]
  | c :: cs => if c = ' ' then acc.reverse :: splitSpAux [] cs else splitSpAux (c :: acc) cs

/-- `.split(" ")` : split on the exact space character. -/
def splitSpace (s : Str) : List Str := splitSpAux [] s

/-- `tokenize` from the source: lower-case, replace characters outside
`[a-z0-9\s-]` with spaces, collapse whitespace runs, trim, split on
spaces, drop empty pieces (`.filter(Boolean)`). -/
def tokenize (s : Str) : List Str :=
  ((splitSpace (trimWS (collapseWS (stripNonClass (jsLower s))))).filter
    (fun t => !t.isEmpty))

/-- `jaccard(aArr, bArr)` : Jaccard index of the two token sets, with the
union size floored at 1 (`|| 1`) to avoid division by zero. -/
def jaccard (aArr bArr : List Str) : ℚ :=
  let A := aArr.toFinset
  let B := bArr.toFinset
  let inter := (A ∩ B).card
  let uni := (A ∪ B).card
  (inter : ℚ) / ((max uni 1 : ℕ) : ℚ)

def NOVELTY_WINDOW_DAYS : Int := 90

def MAX_REPROMPTS : Nat := 3

def TITLE_SIM_THRESHOLD : ℚ := 0.4

def BODY_SIM_THRESHOLD : ℚ := 0.28

def SHINGLE_N : Nat := 5

/-- `words.slice(i, i + n).join(" ")`'s join. -/
def joinSpace : List Str → Str
  | [] => []
  | [w] => w
  | w :: ws => w ++ ' ' :: joinSpace ws

/-- `shingles(words, n)` : the loop `for (i = 0; i <= words.length - n; i++)`
pushes the space-join of `words.slice(i, i + n)`; JS number subtraction
makes the loop body run `words.length + 1 - n` times (zero when the list
is shorter than `n`), which truncated `Nat` subtraction reproduces. -/
def shingles (words : List Str) (n : Nat) : List Str :=
  (List.range (words.length + 1 - n)).map (fun i => joinSpace ((words.drop i).take n))

/-- Split a string at its first `>`: returns the characters strictly before
it and the characters after it. `none` when there is no `>`. -/
def splitAtGt : Str → Option (Str × Str)
  | [] => none
  | c :: cs =>
    if c = '>' then some ([], cs)
    else
      match splitAtGt cs with
      | none => none
      | some (b, a) => some (c :: b, a)

theorem splitAtGt_after_length :
    ∀ (s b a : Str), splitAtGt s = some (b, a) → a.length < s.length := by
  intro s
  induction s with
  | nil => intro b a h; simp [splitAtGt] at h
  | cons c cs ih =>
    intro b a h
    by_cases hc : c = '>'
    · simp [splitAtGt, hc] at h
      simp [← h.2, List.length_cons]
    · simp only [splitAtGt, if_neg hc] at h
      cases hsp : splitAtGt cs with
      | none => rw [hsp] at h; simp at h
      | some p =>
        rw [hsp] at h
        simp at h
        have hlt := ih p.1 p.2 (by rw [hsp])
        have ha : a = p.2 := by rw [← h.2]
        rw [ha, List.length_cons]
        omega

/-- `.replace(/<[^>]+>/g, " ")` : each leftmost span `<…>` with at least
one non-`>` character between the brackets becomes a single space; a `<`
that opens no such span (no later `>`, or `<>` immediately) is kept and
scanning resumes after it. -/
def stripTags : Str → Str
  | [] => []
  | c :: cs =>
    if c = '<' then
      match h : splitAtGt cs with
      | some (b, a) =>
        if b.isEmpty then '<' :: stripTags cs else ' ' :: stripTags a
      | none => '<' :: stripTags cs
    else c :: stripTags cs
termination_by s => s.length
decreasing_by
  all_goals
    first
      | (simp only [List.length_cons]; omega)
      | (have hlt := splitAtGt_after_length cs b a h
         simp only [List.length_cons]
         omega)

/-- `bodySimilarity(htmlA, htmlB)` : strip markup spans to spaces, tokenize,
return 0 when either side has fewer than `SHINGLE_N` tokens, otherwise the
Jaccard index of the two shingle sets (union size floored at 1). -/
def bodySimilarity (htmlA htmlB : Str) : ℚ :=
  let wa := tokenize (stripTags htmlA)
  let wb := tokenize (stripTags htmlB)
  if wa.length < SHINGLE_N ∨ wb.length < SHINGLE_N then 0
  else
    let Sa := (shingles wa SHINGLE_N).toFinset
    let Sb := (shingles wb SHINGLE_N).toFinset
    ((Sa ∩ Sb).card : ℚ) / ((max (Sa ∪ Sb).card 1 : ℕ) : ℚ)

/-- The effective date value of a stored article after the JS fallback
chain `a.date || a.createdAt || 0`:
 * `missing`  — both fields absent/falsy, so `new Date(0)` (the epoch);
 * `invalid`  — a present but unparseable string, so an Invalid Date whose
   timestamp is NaN (every `≥` comparison is false);
 * `valid d`  — a string parsing to timestamp `d`. -/
inductive DateVal where
  | missing : DateVal
  | invalid : DateVal
  | valid : Int → DateVal
deriving DecidableEq

/-- A stored article, restricted to the fields the novelty core reads. -/
structure Article where
  dateVal : DateVal
  title : Str
  body : Str
  tag : Str
  tags : List Str
deriving DecidableEq

/-- `new Date(a.date || a.createdAt || 0)` as a timestamp: `none` models
NaN (Invalid Date). -/
def parseDate : DateVal → Option Int
  | .missing => some 0
  | .invalid => none
  | .valid d => some d

/-- `d >= cutoff` on JS dates: false when the timestamp is NaN. -/
def dateGE (pd : Option Int) (cutoff : Int) : Bool :=
  match pd with
  | none => false
  | some d => decide (cutoff ≤ d)

/-- `recentWindow(articles, days)` : keep the articles whose (parsed) date
is at least `now − days`. -/
def recentWindow (articles : List Article) (now days : Int) : List Article :=
  articles.filter (fun a => dateGE (parseDate a.dateVal) (now - days))

/-- A comparison-pool record as the guard sees it (`{title, body, tag, tags}`
after `main`'s mapping; `isTooSimilar` reads only `title` and `body`). -/
structure Recent where
  title : Str
  body : Str
  tag : Str
  tags : List Str
deriving DecidableEq

/-- The candidate object passed to `isTooSimilar`: `{title, body_html}`. -/
structure Draft where
  title : Str
  body_html : Str
deriving DecidableEq

/-- The non-null return of `isTooSimilar`: which dimension clashed, the
offending pool record, and the similarity score. -/
inductive Clash where
  | title : Recent → ℚ → Clash
  | body : Recent → ℚ → Clash
deriving DecidableEq

/-- The `for (const r of recents)` loop body of `isTooSimilar` (the
candidate's title tokens are computed once, before the loop). -/
def isTooSimilarGo (draft : Draft) (tTokens : List Str) : List Recent → Option Clash
  | [] => none
  | r :: rs =>
    let tSim := jaccard tTokens (tokenize r.title)
    if TITLE_SIM_THRESHOLD ≤ tSim then some (.title r tSim)
    else
      let bSim := bodySimilarity draft.body_html r.body
      if BODY_SIM_THRESHOLD ≤ bSim then some (.body r bSim)
      else isTooSimilarGo draft tTokens rs

/-- `isTooSimilar(draft, recents)` : first record whose title similarity
reaches `TITLE_SIM_THRESHOLD`, or (title below threshold) whose body
similarity reaches `BODY_SIM_THRESHOLD`; `none` when no record clashes. -/
def isTooSimilar (draft : Draft) (recents : List Recent) : Option Clash :=
  isTooSimilarGo draft (tokenize draft.title) recents

/-- Whether a pool record does not clash with the candidate on either
dimension: title similarity below `TITLE_SIM_THRESHOLD` and body
similarity below `BODY_SIM_THRESHOLD`. -/
def cleanAgainst (draft : Draft) (r : Recent) : Prop :=
  jaccard (tokenize draft.title) (tokenize r.title) < TITLE_SIM_THRESHOLD ∧
  bodySimilarity draft.body_html r.body < BODY_SIM_THRESHOLD

/-- A draft as returned by the generator collaborator, restricted to the
fields the novelty loop reads (`title`, `body_html`, `primary_tag`,
`tags`). -/
structure RawDraft where
  title : Str
  body_html : Str
  primary_tag : Str
  tags : List Str
deriving DecidableEq

/-- `obj.primary_tag || (obj.tags && obj.tags[0]) || "Insurance"`. -/
def normPrimaryTag (r : RawDraft) : Str :=
  if ¬ r.primary_tag.isEmpty then r.primary_tag
  else
    let t0 := r.tags.headD []
    if ¬ t0.isEmpty then t0 else "Insurance".toList

/-- `normalizeDraft` restricted to the fields the loop reads: `title`,
`body_html` and `tags` pass through, `primary_tag` gets its fallback. -/
def normalizeDraft (r : RawDraft) : RawDraft :=
  ⟨r.title, r.body_html, normPrimaryTag r, r.tags⟩

/-- The exclusion context the generator collaborator receives: the
`avoidTitles` / `avoidTags` lists of `generateArticleJSONWithNovelty`. -/
structure GuardState where
  avoidTitles : List Str
  avoidTags : List Str
deriving DecidableEq

/-- The context update after a clash:
`avoidTitles.unshift(draft.title)` and, when `draft.primary_tag` is
truthy, `avoidTags.unshift(String(draft.primary_tag).toLowerCase())`. -/
def extendCtx (st : GuardState) (d : RawDraft) : GuardState :=
  ⟨d.title :: st.avoidTitles,
   if ¬ d.primary_tag.isEmpty then jsLower d.primary_tag :: st.avoidTags
   else st.avoidTags⟩

/-- Outcome of the guard: the accepted draft, or the thrown
novelty-exhausted error carrying the last clash (`lastReason`). -/
inductive GuardResult where
  | ok : RawDraft → GuardResult
  | exhausted : Option Clash → GuardResult
deriving DecidableEq

/-- `recents.map(r => ({title: r.title, body: r.body}))` inside the loop. -/
def guardView (r : Recent) : Recent := ⟨r.title, r.body, [], []⟩

/-- `avoidTitles = recents.map(r => r.title).filter(Boolean)`. -/
def initAvoidTitles (recents : List Recent) : List Str :=
  (recents.map (fun r => r.title)).filter (fun t => !t.isEmpty)

/-- JS `Set.add`: append only when not already present (insertion order). -/
def addIfNew (l : List Str) (x : Str) : List Str := if x ∈ l then l else l ++ [x]

/-- The recent tag cloud `avoidTags`: for each record, add its lowered
`tag` when truthy, then each of its lowered `tags`; spread back to a list
in insertion order. -/
def initAvoidTags (recents : List Recent) : List Str :=
  recents.foldl
    (fun acc r =>
      let acc1 := if ¬ r.tag.isEmpty then addIfNew acc (jsLower r.tag) else acc
      r.tags.foldl (fun a t => addIfNew a (jsLower t)) acc1)
    []

/-- The `while (attempt <= MAX_REPROMPTS)` loop of
`generateArticleJSONWithNovelty`, modelled with the generator collaborator
as an oracle `gen` (a function of the attempt number and the exclusion
context it is prompted with). `rem` is the number of loop iterations
still permitted (`MAX_REPROMPTS + 1 - attempt`), which decreases strictly
on every retry: the loop always terminates. Besides the JS result (the
draft, or the thrown exhaustion error carrying `lastReason`), the model
returns the list of exclusion contexts passed to the successive generator
calls, so that the number of calls and the context handed to each call
are observable. -/
def guardLoop (gen : Nat → GuardState → RawDraft) (recents : List Recent) :
    GuardState → Option Clash → Nat → Nat → GuardResult × List GuardState
  | _, last, _, 0 => (.exhausted last, [])
  | st, _, attempt, rem + 1 =>
    let draft := normalizeDraft (gen attempt st)
    match isTooSimilar ⟨draft.title, draft.body_html⟩ recents with
    | none => (.ok draft, [st])
    | some c =>
      let r := guardLoop gen recents (extendCtx st draft) (some c) (attempt + 1) rem
      (r.1, st :: r.2)

/-- `generateArticleJSONWithNovelty(recents)` : build the initial avoid
lists from the pool, then run the bounded re-prompt loop (attempt 0 with
`MAX_REPROMPTS + 1` permitted iterations) over the `{title, body}` view of
the pool. -/
def generateArticleJSONWithNovelty (gen : Nat → GuardState → RawDraft)
    (recents : List Recent) : GuardResult × List GuardState :=
  guardLoop gen (recents.map guardView)
    ⟨initAvoidTitles recents, initAvoidTags recents⟩ none 0 (MAX_REPROMPTS + 1)

/-- The default used when indexing a guard trace with `List.getD`. -/
def dfltCtx : GuardState := ⟨[], []⟩

/-! ### Theorems -/

theorem jaccard_def (A B : List Str) :
    jaccard A B = (((A.toFinset ∩ B.toFinset).card : ℕ) : ℚ) /
      ((max (A.toFinset ∪ B.toFinset).card 1 : ℕ) : ℚ) := rfl

theorem normalizeDraft_tag_ne (r : RawDraft) :
    ¬ (normalizeDraft r).primary_tag.isEmpty = true := by
  simp only [normalizeDraft, normPrimaryTag]
  by_cases h1 : ¬ r.primary_tag.isEmpty = true
  · rw [if_pos h1]
    exact h1
  · rw [if_neg h1]
    by_cases h2 : ¬ (r.tags.headD []).isEmpty = true
    · rw [if_pos h2]
      exact h2
    · rw [if_neg h2]
      decide

theorem extendCtx_of_normalized (st : GuardState) (r : RawDraft) :
    extendCtx st (normalizeDraft r) =
      ⟨(normalizeDraft r).title :: st.avoidTitles,
       jsLower (normalizeDraft r).primary_tag :: st.avoidTags⟩ := by
  simp only [extendCtx]
  rw [if_pos (normalizeDraft_tag_ne r)]

theorem guardLoop_all_clash (gen : Nat → GuardState → RawDraft) (R : List Recent)
    (hclash : ∀ a st, isTooSimilar ⟨(normalizeDraft (gen a st)).title,
        (normalizeDraft (gen a st)).body_html⟩ R ≠ none) :
    ∀ (rem : Nat) (st : GuardState) (last : Option Clash) (attempt : Nat),
      (guardLoop gen R st last attempt rem).2.length = rem ∧
      (rem = 0 → (guardLoop gen R st last attempt rem).1 = .exhausted last) ∧
      (0 < rem → ∃ c, (guardLoop gen R st last attempt rem).1 = .exhausted (some c)) := by
  intro rem
  induction rem with
  | zero =>
    intro st last attempt
    exact ⟨rfl, fun _ => rfl, fun h => absurd h (by omega)⟩
  | succ rem ih =>
    intro st last attempt
    cases heq : isTooSimilar ⟨(normalizeDraft (gen attempt st)).title,
        (normalizeDraft (gen attempt st)).body_html⟩ R with
    | none => exact absurd heq (hclash attempt st)
    | some c =>
      have hred : guardLoop gen R st last attempt (rem + 1) =
          ((guardLoop gen R (extendCtx st (normalizeDraft (gen attempt st)))
              (some c) (attempt + 1) rem).1,
           st :: (guardLoop gen R (extendCtx st (normalizeDraft (gen attempt st)))
              (some c) (attempt + 1) rem).2) := by
        simp only [guardLoop, heq]
      obtain ⟨hlen, hzero, hpos⟩ :=
        ih (extendCtx st (normalizeDraft (gen attempt st))) (some c) (attempt + 1)
      refine ⟨?_, ?_, ?_⟩
      · rw [hred]
        simp [hlen]
      · intro h0
        exact absurd h0 (Nat.succ_ne_zero rem)
      · intro _
        rw [hred]
        rcases Nat.eq_zero_or_pos rem with h0 | hp
        · exact ⟨c, hzero h0⟩
        · exact hpos hp

/-- C1: whenever every candidate the generator can produce clashes with
the comparison pool, the guard with `MAX_REPROMPTS = 3` hands the
generator an exclusion context exactly 4 times (the initial attempt plus
3 retries) and then fails with the novelty-exhausted error carrying a
clash; the loop is a total function of its bounded fuel, so it never runs
forever. -/
theorem guard_exhausts_after_four_calls (gen : Nat → GuardState → RawDraft)
    (recents : List Recent)
    (hclash : ∀ a st, isTooSimilar ⟨(normalizeDraft (gen a st)).title,
        (normalizeDraft (gen a st)).body_html⟩ (recents.map guardView) ≠ none) :
    (generateArticleJSONWithNovelty gen recents).2.length = 4 ∧
    ∃ c, (generateArticleJSONWithNovelty gen recents).1 =
      GuardResult.exhausted (some c) := by
  obtain ⟨hlen, _, hpos⟩ :=
    guardLoop_all_clash gen (recents.map guardView) hclash (MAX_REPROMPTS + 1)
      ⟨initAvoidTitles recents, initAvoidTags recents⟩ none 0
  exact ⟨hlen, hpos (by simp [MAX_REPROMPTS])⟩

theorem guardLoop_trace_head (gen : Nat → GuardState → RawDraft) (R : List Recent) :
    ∀ (rem : Nat) (st : GuardState) (last : Option Clash) (attempt : Nat),
      (guardLoop gen R st last attempt rem).2 ≠ [] →
      (guardLoop gen R st last attempt rem).2.getD 0 dfltCtx = st := by
  intro rem st last attempt h
  cases rem with
  | zero => simp [guardLoop] at h
  | succ rem =>
    cases heq : isTooSimilar ⟨(normalizeDraft (gen attempt st)).title,
        (normalizeDraft (gen attempt st)).body_html⟩ R with
    | none => simp only [guardLoop, heq]; rfl
    | some c => simp only [guardLoop, heq]; rfl

theorem guardLoop_trace_adjacent (gen : Nat → GuardState → RawDraft) (R : List Recent) :
    ∀ (rem : Nat) (st : GuardState) (last : Option Clash) (attempt i : Nat),
      i + 1 < (guardLoop gen R st last attempt rem).2.length →
      (∃ c, isTooSimilar
          ⟨(normalizeDraft (gen (attempt + i)
              ((guardLoop gen R st last attempt rem).2.getD i dfltCtx))).title,
           (normalizeDraft (gen (attempt + i)
              ((guardLoop gen R st last attempt rem).2.getD i dfltCtx))).body_html⟩
          R = some c) ∧
      (guardLoop gen R st last attempt rem).2.getD (i + 1) dfltCtx =
        extendCtx ((guardLoop gen R st last attempt rem).2.getD i dfltCtx)
          (normalizeDraft (gen (attempt + i)
            ((guardLoop gen R st last attempt rem).2.getD i dfltCtx))) := by
  intro rem
  induction rem with
  | zero =>
    intro st last attempt i hi
    simp [guardLoop] at hi
  | succ rem ih =>
    intro st last attempt i hi
    cases heq : isTooSimilar ⟨(normalizeDraft (gen attempt st)).title,
        (normalizeDraft (gen attempt st)).body_html⟩ R with
    | none =>
      rw [show (guardLoop gen R st last attempt (rem + 1)).2 = [st] by
        simp only [guardLoop, heq]] at hi
      simp at hi
    | some c =>
      have htr : (guardLoop gen R st last attempt (rem + 1)).2 =
          st :: (guardLoop gen R (extendCtx st (normalizeDraft (gen attempt st)))
            (some c) (attempt + 1) rem).2 := by
        simp only [guardLoop, heq]
      rw [htr] at hi ⊢
      cases i with
      | zero =>
        have hne : (guardLoop gen R (extendCtx st (normalizeDraft (gen attempt st)))
            (some c) (attempt + 1) rem).2 ≠ [] := by
          simp only [List.length_cons] at hi
          intro h0
          rw [h0] at hi
          simp at hi
        have hhead := guardLoop_trace_head gen R rem
          (extendCtx st (normalizeDraft (gen attempt st))) (some c) (attempt + 1) hne
        simp only [List.getD_cons_zero, List.getD_cons_succ, Nat.add_zero]
        exact ⟨⟨c, heq⟩, hhead⟩
      | succ j =>
        simp only [List.getD_cons_succ]
        have harith : attempt + (j + 1) = attempt + 1 + j := by omega
        rw [harith]
        apply ih (extendCtx st (normalizeDraft (gen attempt st))) (some c) (attempt + 1) j
        simp only [List.length_cons] at hi
        omega

theorem guardLoop_trace_mono (gen : Nat → GuardState → RawDraft) (R : List Recent)
    (rem : Nat) (st : GuardState) (last : Option Clash) (attempt : Nat) :
    ∀ (d i : Nat), i + d < (guardLoop gen R st last attempt rem).2.length →
      ((guardLoop gen R st last attempt rem).2.getD i dfltCtx).avoidTitles ⊆
        ((guardLoop gen R st last attempt rem).2.getD (i + d) dfltCtx).avoidTitles ∧
      ((guardLoop gen R st last attempt rem).2.getD i dfltCtx).avoidTags ⊆
        ((guardLoop gen R st last attempt rem).2.getD (i + d) dfltCtx).avoidTags := by
  intro d
  induction d with
  | zero =>
    intro i _
    exact ⟨List.Subset.refl _, List.Subset.refl _⟩
  | succ d ihd =>
    intro i hi
    have hstep := guardLoop_trace_adjacent gen R rem st last attempt (i + d) (by omega)
    have hprev := ihd i (by omega)
    have hext := hstep.2
    constructor
    · intro x hx
      have hx2 := hprev.1 hx
      rw [show i + (d + 1) = (i + d) + 1 by omega, hext]
      exact List.mem_cons_of_mem _ hx2
    · intro x hx
      have hx2 := hprev.2 hx
      rw [show i + (d + 1) = (i + d) + 1 by omega, hext]
      simp only [extendCtx]
      by_cases hpt : ¬ (normalizeDraft (gen (attempt + (i + d))
          ((guardLoop gen R st last attempt rem).2.getD (i + d) dfltCtx))).primary_tag.isEmpty = true
      · rw [if_pos hpt]
        exact List.mem_cons_of_mem _ hx2
      · rw [if_neg hpt]
        exact hx2

/-- C9: along the retry loop, the exclusion context grows monotonically:
whenever a generation call at attempt `i` is followed by another one, the
candidate of attempt `i` clashed, and the context handed to attempt
`i + 1` is exactly attempt `i`'s context with the clashing candidate's
title pushed onto `avoidTitles` and its lower-cased primary tag pushed
onto `avoidTags`; consequently every title and tag present in the context
at one attempt is still present at every later attempt. -/
theorem guard_exclusions_monotone (gen : Nat → GuardState → RawDraft)
    (recents : List Recent) :
    (∀ i, i + 1 < (generateArticleJSONWithNovelty gen recents).2.length →
      (∃ c, isTooSimilar
          ⟨(normalizeDraft (gen i
              ((generateArticleJSONWithNovelty gen recents).2.getD i dfltCtx))).title,
           (normalizeDraft (gen i
              ((generateArticleJSONWithNovelty gen recents).2.getD i dfltCtx))).body_html⟩
          (recents.map guardView) = some c) ∧
      ((generateArticleJSONWithNovelty gen recents).2.getD (i + 1) dfltCtx).avoidTitles =
        (normalizeDraft (gen i
          ((generateArticleJSONWithNovelty gen recents).2.getD i dfltCtx))).title ::
          ((generateArticleJSONWithNovelty gen recents).2.getD i dfltCtx).avoidTitles ∧
      ((generateArticleJSONWithNovelty gen recents).2.getD (i + 1) dfltCtx).avoidTags =
        jsLower (normalizeDraft (gen i
          ((generateArticleJSONWithNovelty gen recents).2.getD i dfltCtx))).primary_tag ::
          ((generateArticleJSONWithNovelty gen recents).2.getD i dfltCtx).avoidTags) ∧
    (∀ i j, i ≤ j → j < (generateArticleJSONWithNovelty gen recents).2.length →
      ((generateArticleJSONWithNovelty gen recents).2.getD i dfltCtx).avoidTitles ⊆
        ((generateArticleJSONWithNovelty gen recents).2.getD j dfltCtx).avoidTitles ∧
      ((generateArticleJSONWithNovelty gen recents).2.getD i dfltCtx).avoidTags ⊆
        ((generateArticleJSONWithNovelty gen recents).2.getD j dfltCtx).avoidTags) := by
  constructor
  · intro i hi
    have hadj := guardLoop_trace_adjacent gen (recents.map guardView)
      (MAX_REPROMPTS + 1) ⟨initAvoidTitles recents, initAvoidTags recents⟩ none 0 i hi
    rw [Nat.zero_add] at hadj
    refine ⟨hadj.1, ?_, ?_⟩
    · rw [show (generateArticleJSONWithNovelty gen recents).2 =
          (guardLoop gen (recents.map guardView)
            ⟨initAvoidTitles recents, initAvoidTags recents⟩ none 0 (MAX_REPROMPTS + 1)).2
          from rfl, hadj.2, extendCtx_of_normalized]
    · rw [show (generateArticleJSONWithNovelty gen recents).2 =
          (guardLoop gen (recents.map guardView)
            ⟨initAvoidTitles recents, initAvoidTags recents⟩ none 0 (MAX_REPROMPTS + 1)).2
          from rfl, hadj.2, extendCtx_of_normalized]
  · intro i j hij hj
    have hj2 : j < (guardLoop gen (recents.map guardView)
        ⟨initAvoidTitles recents, initAvoidTags recents⟩ none 0
        (MAX_REPROMPTS + 1)).2.length := hj
    have hmono := guardLoop_trace_mono gen (recents.map guardView)
      (MAX_REPROMPTS + 1) ⟨initAvoidTitles recents, initAvoidTags recents⟩ none 0
      (j - i) i (by omega)
    rw [show i + (j - i) = j by omega] at hmono
    exact hmono

/-- C5: for all token lists `A` and `B`, `jaccard A B = jaccard B A` — the
similarity scorer is symmetric in its two arguments. -/
theorem jaccard_comm (A B : List Str) : jaccard A B = jaccard B A := by
  simp only [jaccard]
  rw [Finset.inter_comm, Finset.union_comm]

/-- C4: the Jaccard scorer on two empty token lists returns 0 (the union
size is floored at 1, so there is no division by zero); on any non-empty
token list against itself it returns exactly 1; and its result always lies
in `[0, 1]`. -/
theorem jaccard_empty_self_range :
    jaccard ([] : List Str) [] = 0 ∧
    (∀ A : List Str, A ≠ [] → jaccard A A = 1) ∧
    (∀ A B : List Str, 0 ≤ jaccard A B ∧ jaccard A B ≤ 1) := by
  refine ⟨?_, ?_, ?_⟩
  · simp [jaccard]
  · intro A hA
    simp only [jaccard]
    simp only [Finset.inter_self, Finset.union_self]
    have hcard : 0 < A.toFinset.card := by
      rcases A with _ | ⟨x, xs⟩
      · exact absurd rfl hA
      · exact Finset.card_pos.mpr ⟨x, by simp⟩
    have hmax : max A.toFinset.card 1 = A.toFinset.card := by omega
    rw [hmax, div_self]
    exact_mod_cast hcard.ne'
  · intro A B
    simp only [jaccard]
    constructor
    · positivity
    · have h1 : (A.toFinset ∩ B.toFinset).card ≤ (A.toFinset ∪ B.toFinset).card :=
        Finset.card_le_card Finset.inter_subset_union
      have h2 : (A.toFinset ∪ B.toFinset).card ≤ max (A.toFinset ∪ B.toFinset).card 1 :=
        le_max_left _ _
      apply div_le_one_of_le₀
      · exact_mod_cast le_trans h1 h2
      · positivity

theorem take5_drop {α : Type} (d : α) : ∀ (l : List α) (i : Nat), i + 4 < l.length →
    (l.drop i).take 5 =
      [l.getD i d, l.getD (i+1) d, l.getD (i+2) d, l.getD (i+3) d, l.getD (i+4) d] := by
  intro l
  induction l with
  | nil => intro i h; simp at h
  | cons c cs ih =>
    intro i h
    cases i with
    | zero =>
      rcases cs with _ | ⟨a1, cs1⟩
      · simp at h
      rcases cs1 with _ | ⟨a2, cs2⟩
      · simp at h
      rcases cs2 with _ | ⟨a3, cs3⟩
      · simp at h
      rcases cs3 with _ | ⟨a4, cs4⟩
      · simp at h
      simp [List.getD]
    | succ i =>
      simp only [List.drop_succ_cons, List.getD_cons_succ]
      exact ih i (by simp at h; omega)

/-- C10: on a token list of length `L ≥ 5`, `shingles` with `n = 5` returns
exactly `L − 4` shingles, the `i`-th being the space-join of tokens `i`
through `i + 4` (sliding window, stride 1); on a token list of length
`L < 5` it returns the empty list. -/
theorem shingles_window_spec (words : List Str) :
    (words.length < SHINGLE_N → shingles words SHINGLE_N = []) ∧
    (SHINGLE_N ≤ words.length →
      (shingles words SHINGLE_N).length = words.length - 4 ∧
      ∀ i, i < words.length - 4 →
        (shingles words SHINGLE_N).getD i [] =
          joinSpace [words.getD i [], words.getD (i+1) [], words.getD (i+2) [],
                     words.getD (i+3) [], words.getD (i+4) []]) := by
  constructor
  · intro h
    have h0 : words.length + 1 - SHINGLE_N = 0 := by
      simp only [SHINGLE_N] at *
      omega
    simp [shingles, h0]
  · intro h
    constructor
    · simp only [shingles, List.length_map, List.length_range, SHINGLE_N] at *
      omega
    · intro i hi
      have hmap : i < (shingles words SHINGLE_N).length := by
        simp only [shingles, List.length_map, List.length_range, SHINGLE_N] at *
        omega
      rw [List.getD_eq_getElem _ _ hmap]
      simp only [shingles, List.getElem_map, List.getElem_range, SHINGLE_N]
      rw [take5_drop ([] : Str) words i (by simp only [SHINGLE_N] at *; omega)]

/-- C3: with a 90-day window, the recency filter includes a pool record
dated exactly `now − 90` (inclusive lower bound), excludes one dated
`now − 91`, and includes future-dated records (no upper bound). -/
theorem recentWindow_boundary (h : List Article) (now : Int) (a : Article)
    (hmem : a ∈ h) :
    (a.dateVal = .valid (now - 90) → a ∈ recentWindow h now 90) ∧
    (a.dateVal = .valid (now - 91) → a ∉ recentWindow h now 90) ∧
    (∀ d : Int, now < d → a.dateVal = .valid d → a ∈ recentWindow h now 90) := by
  refine ⟨?_, ?_, ?_⟩
  · intro hd
    apply List.mem_filter.mpr
    refine ⟨hmem, ?_⟩
    simp [dateGE, parseDate, hd]
  · intro hd hcon
    have hp := (List.mem_filter.mp hcon).2
    simp [dateGE, parseDate, hd] at hp
    omega
  · intro d hlt hd
    apply List.mem_filter.mpr
    refine ⟨hmem, ?_⟩
    simp [dateGE, parseDate, hd]
    omega

/-- C8: records with missing or unparseable dates never make the recency
filter raise an error (the embedding is a total function) and are excluded
from the comparison pool whenever the window cutoff lies after the epoch
(`0 < now − days`): a missing date is treated as the epoch and an
unparseable one as NaN, which fails every comparison. -/
theorem recentWindow_bad_dates_excluded (h : List Article) (now days : Int)
    (a : Article) (hbad : a.dateVal = .missing ∨ a.dateVal = .invalid)
    (hwin : 0 < now - days) :
    a ∉ recentWindow h now days := by
  intro hcon
  have hp := (List.mem_filter.mp hcon).2
  rcases hbad with hb | hb
  · simp [dateGE, parseDate, hb] at hp
    omega
  · simp [dateGE, parseDate, hb] at hp

theorem stripNonClass_chars (s : Str) :
    ∀ c ∈ stripNonClass s, keepClass c = true := by
  intro c hc
  simp only [stripNonClass, List.mem_map] at hc
  obtain ⟨a, _, ha⟩ := hc
  by_cases hk : keepClass a = true
  · rw [if_pos hk] at ha
    rw [← ha]
    exact hk
  · rw [if_neg hk] at ha
    rw [← ha]
    decide

theorem collapseWSAux_chars :
    ∀ (l : Str) (b : Bool) (c : Char), c ∈ collapseWSAux b l →
      c = ' ' ∨ (c ∈ l ∧ isWS c = false) := by
  intro l
  induction l with
  | nil => intro b c hc; simp [collapseWSAux] at hc
  | cons d ds ih =>
    intro b c hc
    by_cases hw : isWS d = true
    · cases b with
      | true =>
        simp only [collapseWSAux, if_pos hw] at hc
        rcases ih true c hc with h | h
        · exact Or.inl h
        · exact Or.inr ⟨List.mem_cons_of_mem d h.1, h.2⟩
      | false =>
        simp only [collapseWSAux, if_pos hw] at hc
        rcases List.mem_cons.mp hc with h | h
        · exact Or.inl h
        · rcases ih true c h with h2 | h2
          · exact Or.inl h2
          · exact Or.inr ⟨List.mem_cons_of_mem d h2.1, h2.2⟩
    · simp only [collapseWSAux, if_neg hw] at hc
      rcases List.mem_cons.mp hc with h | h
      · refine Or.inr ⟨List.mem_cons.mpr (Or.inl h), ?_⟩
        rw [h]
        simpa using hw
      · rcases ih false c h with h2 | h2
        · exact Or.inl h2
        · exact Or.inr ⟨List.mem_cons_of_mem d h2.1, h2.2⟩

theorem trimWS_subset (s : Str) : ∀ c ∈ trimWS s, c ∈ s := by
  intro c hc
  simp only [trimWS, List.mem_reverse] at hc
  have h1 := (List.dropWhile_sublist (l := (s.dropWhile isWS).reverse) isWS).mem hc
  rw [List.mem_reverse] at h1
  exact (List.dropWhile_sublist isWS).mem h1

theorem splitSpAux_chars (P : Char → Prop) :
    ∀ (l acc : Str), (∀ c ∈ acc, P c) → (∀ c ∈ l, c ≠ ' ' → P c) →
      ∀ t ∈ splitSpAux acc l, ∀ c ∈ t, P c := by
  intro l
  induction l with
  | nil =>
    intro acc hacc _ t ht c hc
    simp only [splitSpAux, List.mem_singleton] at ht
    rw [ht] at hc
    exact hacc c (List.mem_reverse.mp hc)
  | cons d ds ih =>
    intro acc hacc hl t ht c hc
    by_cases hd : d = ' '
    · simp only [splitSpAux, if_pos hd] at ht
      rcases List.mem_cons.mp ht with h | h
      · rw [h] at hc
        exact hacc c (List.mem_reverse.mp hc)
      · refine ih [] (by simp) ?_ t h c hc
        intro x hx hxs
        exact hl x (List.mem_cons_of_mem d hx) hxs
    · simp only [splitSpAux, if_neg hd] at ht
      refine ih (d :: acc) ?_ ?_ t ht c hc
      · intro x hx
        rcases List.mem_cons.mp hx with h | h
        · rw [h]
          exact hl d (List.mem_cons_self d ds) hd
        · exact hacc x h
      · intro x hx hxs
        exact hl x (List.mem_cons_of_mem d hx) hxs

/-- C7: `tokenize` is a pure function of its input (it is modelled as a
Lean function, so determinism and absence of side effects hold by
construction); the empty input yields the empty token sequence; and every
returned token is non-empty and drawn from `[a-z0-9-]` — the lower-casing,
the removal of characters outside `{a-z, 0-9, whitespace, hyphen}`, the
whitespace collapsing, the trim and the split leave nothing else. -/
theorem tokenize_tokens_wellformed :
    tokenize ([] : Str) = [] ∧
    ∀ s : Str, ∀ t ∈ tokenize s, t ≠ [] ∧ ∀ c ∈ t, isTokenChar c = true := by
  constructor
  · decide
  · intro s t ht
    have hmem := List.mem_filter.mp ht
    have hne : t ≠ [] := by
      intro h0
      rw [h0] at hmem
      simp at hmem
    refine ⟨hne, ?_⟩
    have hpre : ∀ c ∈ trimWS (collapseWS (stripNonClass (jsLower s))),
        c ≠ ' ' → isTokenChar c = true := by
      intro c hc hcs
      have h1 := trimWS_subset _ c hc
      rcases collapseWSAux_chars _ false c h1 with h2 | h2
      · exact absurd h2 hcs
      · have h3 := stripNonClass_chars _ c h2.1
        have h4 := h2.2
        simp only [keepClass, Bool.or_eq_true] at h3
        rcases h3 with h3 | h3
        · exact h3
        · rw [h3] at h4
          cases h4
    exact splitSpAux_chars (fun c => isTokenChar c = true) _ []
      (by simp) hpre t hmem.1

theorem isTooSimilarGo_none_iff (draft : Draft) :
    ∀ rs : List Recent,
      isTooSimilarGo draft (tokenize draft.title) rs = none ↔
        ∀ r ∈ rs, cleanAgainst draft r := by
  intro rs
  induction rs with
  | nil => simp [isTooSimilarGo]
  | cons r rs ih =>
    simp only [isTooSimilarGo]
    by_cases ht : TITLE_SIM_THRESHOLD ≤ jaccard (tokenize draft.title) (tokenize r.title)
    · rw [if_pos ht]
      simp only [reduceCtorEq, false_iff, not_forall]
      refine ⟨r, List.mem_cons_self r rs, ?_⟩
      intro hcl
      exact absurd ht (not_le.mpr hcl.1)
    · rw [if_neg ht]
      by_cases hb : BODY_SIM_THRESHOLD ≤ bodySimilarity draft.body_html r.body
      · rw [if_pos hb]
        simp only [reduceCtorEq, false_iff, not_forall]
        refine ⟨r, List.mem_cons_self r rs, ?_⟩
        intro hcl
        exact absurd hb (not_le.mpr hcl.2)
      · rw [if_neg hb]
        rw [ih]
        constructor
        · intro hall x hx
          rcases List.mem_cons.mp hx with h | h
          · rw [h]
            exact ⟨not_le.mp ht, not_le.mp hb⟩
          · exact hall x h
        · intro hall x hx
          exact hall x (List.mem_cons_of_mem r hx)

theorem isTooSimilarGo_prefix (draft : Draft) (r : Recent) (post : List Recent) :
    ∀ pre : List Recent, (∀ p ∈ pre, cleanAgainst draft p) →
      (TITLE_SIM_THRESHOLD ≤ jaccard (tokenize draft.title) (tokenize r.title) →
        isTooSimilarGo draft (tokenize draft.title) (pre ++ r :: post) =
          some (.title r (jaccard (tokenize draft.title) (tokenize r.title)))) ∧
      (jaccard (tokenize draft.title) (tokenize r.title) < TITLE_SIM_THRESHOLD →
        BODY_SIM_THRESHOLD ≤ bodySimilarity draft.body_html r.body →
        isTooSimilarGo draft (tokenize draft.title) (pre ++ r :: post) =
          some (.body r (bodySimilarity draft.body_html r.body))) := by
  intro pre
  induction pre with
  | nil =>
    intro _
    constructor
    · intro ht
      simp only [List.nil_append, isTooSimilarGo]
      rw [if_pos ht]
    · intro ht hb
      simp only [List.nil_append, isTooSimilarGo]
      rw [if_neg (not_le.mpr ht), if_pos hb]
  | cons p pre ih =>
    intro hclean
    have hp := hclean p (List.mem_cons_self p pre)
    have hrest : ∀ q ∈ pre, cleanAgainst draft q := by
      intro q hq
      exact hclean q (List.mem_cons_of_mem p hq)
    have hstep : isTooSimilarGo draft (tokenize draft.title) ((p :: pre) ++ r :: post) =
        isTooSimilarGo draft (tokenize draft.title) (pre ++ r :: post) := by
      simp only [List.cons_append, isTooSimilarGo]
      rw [if_neg (not_le.mpr hp.1), if_neg (not_le.mpr hp.2)]
      rfl
    rw [hstep]
    exact ih hrest

/-- C2: the screening function scans the pool in order and short-circuits:
it returns `none` exactly when no pool record reaches either threshold;
and whenever the pool splits as `pre ++ r :: post` with every record of
`pre` clean, the verdict on `r` alone fixes the result — a title
similarity `≥ 0.4` yields that title clash, and otherwise a body
similarity `≥ 0.28` yields that body clash, in both cases whatever
`post` contains (later records are not examined), with body similarity
deciding only when the title similarity is below its threshold. -/
theorem isTooSimilar_first_match (draft : Draft) (recents : List Recent) :
    (isTooSimilar draft recents = none ↔ ∀ r ∈ recents, cleanAgainst draft r) ∧
    (∀ pre r post, recents = pre ++ r :: post →
      (∀ p ∈ pre, cleanAgainst draft p) →
      (TITLE_SIM_THRESHOLD ≤ jaccard (tokenize draft.title) (tokenize r.title) →
        isTooSimilar draft recents =
          some (.title r (jaccard (tokenize draft.title) (tokenize r.title)))) ∧
      (jaccard (tokenize draft.title) (tokenize r.title) < TITLE_SIM_THRESHOLD →
        BODY_SIM_THRESHOLD ≤ bodySimilarity draft.body_html r.body →
        isTooSimilar draft recents =
          some (.body r (bodySimilarity draft.body_html r.body)))) := by
  constructor
  · exact isTooSimilarGo_none_iff draft recents
  · intro pre r post hsplit hclean
    rw [hsplit]
    exact isTooSimilarGo_prefix draft r post pre hclean

/-- C6: if either body, after stripping markup spans and tokenizing, has
fewer than `SHINGLE_N = 5` tokens, `bodySimilarity` returns exactly 0,
regardless of the other body's content. -/
theorem bodySimilarity_short_zero (A B : Str)
    (h : (tokenize (stripTags A)).length < SHINGLE_N ∨
         (tokenize (stripTags B)).length < SHINGLE_N) :
    bodySimilarity A B = 0 := by
  unfold bodySimilarity
  simp only [if_pos h]

/-! ### Concrete inputs for the witnesses -/

def wTitle : Str := "hello world".toList

def wRecent : Recent := ⟨wTitle, [], [], []⟩

def wRecents : List Recent := [wRecent]

def wRaw : RawDraft := ⟨wTitle, [], "risk".toList, []⟩

/-- A generator collaborator that always returns the same draft, whose
title coincides with the pool title. -/
def wGen : Nat → GuardState → RawDraft := fun _ _ => wRaw

def wP0 : Recent := ⟨"alpha beta".toList, [], [], []⟩

def wPost0 : Recent := ⟨"gamma".toList, [], [], []⟩

theorem wTitle_jaccard_self :
    TITLE_SIM_THRESHOLD ≤ jaccard (tokenize wTitle) (tokenize wTitle) := by
  have h1 : ((tokenize wTitle).toFinset ∩ (tokenize wTitle).toFinset).card = 2 := by
    decide
  have h2 : max ((tokenize wTitle).toFinset ∪ (tokenize wTitle).toFinset).card 1 = 2 := by
    decide
  rw [jaccard_def, h1, h2]
  norm_num [TITLE_SIM_THRESHOLD]

theorem wTitle_jaccard_p0 :
    jaccard (tokenize wTitle) (tokenize wP0.title) < TITLE_SIM_THRESHOLD := by
  have h1 : ((tokenize wTitle).toFinset ∩ (tokenize wP0.title).toFinset).card = 0 := by
    decide
  have h2 : max ((tokenize wTitle).toFinset ∪ (tokenize wP0.title).toFinset).card 1 = 4 := by
    decide
  rw [jaccard_def, h1, h2]
  norm_num [TITLE_SIM_THRESHOLD]

theorem stripTags_nil : stripTags [] = [] := by
  simp [stripTags]

theorem bodySimilarity_nil_nil : bodySimilarity [] [] = 0 := by
  simp only [bodySimilarity]
  rw [stripTags_nil]
  rw [if_pos (Or.inl (by decide))]

theorem wGen_clash : ∀ (a : Nat) (st : GuardState),
    isTooSimilar ⟨(normalizeDraft (wGen a st)).title,
      (normalizeDraft (wGen a st)).body_html⟩ (wRecents.map guardView) ≠ none := by
  intro a st hnone
  have hcl := (isTooSimilarGo_none_iff ⟨wTitle, []⟩ (wRecents.map guardView)).mp hnone
    (guardView wRecent) (by simp [wRecents])
  exact absurd wTitle_jaccard_self (not_le.mpr hcl.1)

/-! ### Witnesses -/

/-- Witness for C1 at the constant clashing generator: 4 generator calls,
then exhaustion. -/
theorem guard_exhausts_after_four_calls_witness :
    (generateArticleJSONWithNovelty wGen wRecents).2.length = 4 ∧
    ∃ c, (generateArticleJSONWithNovelty wGen wRecents).1 =
      GuardResult.exhausted (some c) :=
  guard_exhausts_after_four_calls wGen wRecents wGen_clash

/-- Witness for C2: with one clean record before it, the pool record whose
title repeats the candidate's is reported as a title clash, whatever
follows it. -/
theorem isTooSimilar_first_match_witness :
    isTooSimilar ⟨wTitle, []⟩ ([wP0] ++ wRecent :: [wPost0]) =
      some (Clash.title wRecent (jaccard (tokenize wTitle) (tokenize wRecent.title))) :=
  (((isTooSimilar_first_match ⟨wTitle, []⟩ ([wP0] ++ wRecent :: [wPost0])).2
      [wP0] wRecent [wPost0] rfl
      (by
        intro p hp
        have hp0 : p = wP0 := by simpa using hp
        rw [hp0]
        refine ⟨wTitle_jaccard_p0, ?_⟩
        show bodySimilarity ([] : Str) ([] : Str) < BODY_SIM_THRESHOLD
        rw [bodySimilarity_nil_nil]
        norm_num [BODY_SIM_THRESHOLD])).1
    wTitle_jaccard_self)

/-- Witness for C3 at `now = 100`: a record dated 10 (= 100 − 90) is kept,
one dated 9 is dropped, one dated 200 (future) is kept. -/
theorem recentWindow_boundary_witness :
    (⟨.valid 10, [], [], [], []⟩ : Article) ∈
      recentWindow [⟨.valid 10, [], [], [], []⟩, ⟨.valid 9, [], [], [], []⟩,
        ⟨.valid 200, [], [], [], []⟩] 100 90 ∧
    (⟨.valid 9, [], [], [], []⟩ : Article) ∉
      recentWindow [⟨.valid 10, [], [], [], []⟩, ⟨.valid 9, [], [], [], []⟩,
        ⟨.valid 200, [], [], [], []⟩] 100 90 ∧
    (⟨.valid 200, [], [], [], []⟩ : Article) ∈
      recentWindow [⟨.valid 10, [], [], [], []⟩, ⟨.valid 9, [], [], [], []⟩,
        ⟨.valid 200, [], [], [], []⟩] 100 90 :=
  ⟨(recentWindow_boundary _ 100 _ (by decide)).1 (by decide),
   (recentWindow_boundary _ 100 _ (by decide)).2.1 (by decide),
   (recentWindow_boundary _ 100 _ (by decide)).2.2 200 (by decide) rfl⟩

/-- Witness for C4: both special values and the range at a concrete pair. -/
theorem jaccard_empty_self_range_witness :
    jaccard ([] : List Str) [] = 0 ∧
    jaccard ["a".toList] ["a".toList] = 1 ∧
    (0 ≤ jaccard ["a".toList] ["b".toList] ∧ jaccard ["a".toList] ["b".toList] ≤ 1) :=
  ⟨jaccard_empty_self_range.1,
   jaccard_empty_self_range.2.1 ["a".toList] (by decide),
   jaccard_empty_self_range.2.2 ["a".toList] ["b".toList]⟩

/-- Witness for C6: a 1-token body against a 6-token body scores 0. -/
theorem bodySimilarity_short_zero_witness :
    bodySimilarity "<p>hi</p>".toList
      "alpha beta gamma delta epsilon zeta".toList = 0 :=
  bodySimilarity_short_zero _ _
    (Or.inl (by
      have hst : stripTags "<p>hi</p>".toList = " hi ".toList := by
        simp [stripTags, splitAtGt]
      rw [hst]
      decide))

/-- Witness for C7: the token `"ab"` of `tokenize "Ab c!"` is non-empty
and drawn from `[a-z0-9-]`. -/
theorem tokenize_tokens_wellformed_witness :
    "ab".toList ≠ [] ∧ ∀ c ∈ "ab".toList, isTokenChar c = true :=
  tokenize_tokens_wellformed.2 "Ab c!".toList "ab".toList (by decide)

/-- Witness for C8: records with a missing or invalid date are dropped by
a 90-day window ending at `now = 100`. -/
theorem recentWindow_bad_dates_excluded_witness :
    (⟨.missing, [], [], [], []⟩ : Article) ∉
      recentWindow [⟨.missing, [], [], [], []⟩, ⟨.invalid, [], [], [], []⟩] 100 90 ∧
    (⟨.invalid, [], [], [], []⟩ : Article) ∉
      recentWindow [⟨.missing, [], [], [], []⟩, ⟨.invalid, [], [], [], []⟩] 100 90 :=
  ⟨recentWindow_bad_dates_excluded _ 100 90 _ (Or.inl rfl) (by decide),
   recentWindow_bad_dates_excluded _ 100 90 _ (Or.inr rfl) (by decide)⟩

/-- Witness for C9: with the constant clashing generator the trace has 4
entries, and the avoid lists at attempt 0 are contained in those at
attempt 3. -/
theorem guard_exclusions_monotone_witness :
    ((generateArticleJSONWithNovelty wGen wRecents).2.getD 0 dfltCtx).avoidTitles ⊆
      ((generateArticleJSONWithNovelty wGen wRecents).2.getD 3 dfltCtx).avoidTitles ∧
    ((generateArticleJSONWithNovelty wGen wRecents).2.getD 0 dfltCtx).avoidTags ⊆
      ((generateArticleJSONWithNovelty wGen wRecents).2.getD 3 dfltCtx).avoidTags :=
  (guard_exclusions_monotone wGen wRecents).2 0 3 (by omega)
    (by
      have hlen : (generateArticleJSONWithNovelty wGen wRecents).2.length = 4 :=
        (guardLoop_all_clash wGen (wRecents.map guardView) wGen_clash
          (MAX_REPROMPTS + 1) ⟨initAvoidTitles wRecents, initAvoidTags wRecents⟩
          none 0).1.trans (by decide)
      rw [hlen]
      omega)

/-- Witness for C10: six tokens give two shingles, the second covering
tokens 1 through 5. -/
theorem shingles_window_spec_witness :
    (shingles ["a".toList, "b".toList, "c".toList, "d".toList, "e".toList,
        "f".toList] SHINGLE_N).length =
      (["a".toList, "b".toList, "c".toList, "d".toList, "e".toList,
        "f".toList] : List Str).length - 4 ∧
    (shingles ["a".toList, "b".toList, "c".toList, "d".toList, "e".toList,
        "f".toList] SHINGLE_N).getD 1 [] =
      joinSpace ["b".toList, "c".toList, "d".toList, "e".toList, "f".toList] :=
  ⟨((shingles_window_spec _).2 (by decide)).1,
   ((shingles_window_spec _).2 (by decide)).2 1 (by decide)⟩

end Novelty
